import Mathlib

/-
Verification of the control firmware of the DK7IH 8-band SSB transceiver
(`8-band-trx2.c`, STM32F4 target).

Shallow embedding conventions:
* The target is 32-bit ARM (arm-none-eabi-gcc): `int` and `long` are 32-bit
  signed, `unsigned long` is 32-bit unsigned, `uint8_t`/`unsigned char` is
  8-bit.  C integers are modelled as `ℤ` (or `ℕ` for unsigned byte values);
  wherever the C code converts to `unsigned char` we reduce mod 256
  (`toByte`), and wherever a computation can exceed the 32-bit signed range
  we apply the two's-complement wrap `wrap32` that the hardware performs.
* C's arithmetic right shift `>> k` on a (possibly negative) `long` is floor
  division by `2^k`; for positive divisors Lean's `Int` division `/` (`ediv`)
  is exactly floor division, so shifts are written `/ 65536`, `/ 256`.
* The EEPROM (24C65) is modelled as a byte image `ℕ → ℕ`; `eeprom_read`
  masks to a byte, as the device returns 8-bit data.
* Hardware output (bit-banged SPI to the AD9951 DDS, Si5351 register writes,
  EEPROM writes, display calls) is modelled as transcripts: lists of events
  emitted by each operation.
* The one floating-point computation (`fword = (f + IF) * 10.73741824` in
  `set_frequency`) is modelled by passing the value of the `double` product
  as an exact rational parameter `x`; theorems assume only that `x` is
  within 1/4 of the exact real product, a bound that holds for IEEE-754
  double arithmetic with nine decimal digits of margin.
* The interrupt handlers (`EXTI0_IRQHandler`, `TIM2_IRQHandler`) and the
  main-loop steps are state-transition functions on explicit state records.
-/

namespace Trx

/-- Two's-complement wrap of an integer into the value range of the 32-bit
signed `long` of the target, `[-2^31, 2^31)`. -/
def wrap32 (x : ℤ) : ℤ := (x + 2 ^ 31) % 2 ^ 32 - 2 ^ 31

/-- C conversion of an integer value to `unsigned char`: reduction mod 256. -/
def toByte (x : ℤ) : ℕ := (x % 256).toNat

/-! ## Band tables (source lines 372-383) -/

/-- Factory-default VFO frequencies `f_vfo0[MAXBANDS][2]` (lines 372-379). -/
def f_vfo0 : ℕ → ℕ → ℤ
  | 0, 0 => 1888000 | 0, 1 => 1961000
  | 1, 0 => 3650000 | 1, 1 => 3650000
  | 2, 0 => 7120000 | 2, 1 => 7120000
  | 3, 0 => 14200000 | 3, 1 => 14280000
  | 4, 0 => 18080000 | 4, 1 => 18150000
  | 5, 0 => 21290000 | 5, 1 => 21390000
  | 6, 0 => 24910000 | 6, 1 => 24912000
  | 7, 0 => 28500000 | 7, 1 => 28590000
  | _, _ => 0

/-- Preferred sideband for each ham band, `pref_sideband[]` (line 380). -/
def pref_sideband : ℕ → ℤ
  | 0 => 0 | 1 => 0 | 2 => 0
  | 3 => 1 | 4 => 1 | 5 => 1 | 6 => 1 | 7 => 1
  | _ => 0

/-- Band start frequencies `band_f0[]` (line 382). -/
def band_f0 : ℕ → ℤ
  | 0 => 1810000 | 1 => 3500000 | 2 => 7000000 | 3 => 14000000
  | 4 => 18065000 | 5 => 21000000 | 6 => 24890000 | 7 => 28000000
  | _ => 0

/-- Band end frequencies `band_f1[]` (line 383). -/
def band_f1 : ℕ → ℤ
  | 0 => 2000000 | 1 => 3800000 | 2 => 7200000 | 3 => 14350000
  | 4 => 18165000 | 5 => 21465000 | 6 => 24990000 | 7 => 29700000
  | _ => 0

/-- `#define INTERFREQUENCY 10000000` (line 385). -/
def INTERFREQUENCY : ℤ := 10000000

/-! ## EEPROM 24C65 model (source lines 1566-1665) -/

/-- EEPROM byte image: address ↦ last byte written there. -/
abbrev EEPROM := ℕ → ℕ

/-- `eeprom_write(mem_address, value)` (lines 1566-1574): the store returns,
at each address, the byte last written there; the `uint8_t` parameter is a
byte, enforced by the mod-256 mask. -/
def eeprom_write (m : EEPROM) (mem_address : ℕ) (value : ℕ) : EEPROM :=
  fun a => if a = mem_address then value % 256 else m a

/-- `eeprom_read(mem_address)` (lines 1576-1582); the device returns a byte. -/
def eeprom_read (m : EEPROM) (mem_address : ℕ) : ℕ :=
  m mem_address % 256

/-- `is_freq_ok(f, cband)` (lines 1587-1595): band-plan range check. -/
def is_freq_ok (f : ℤ) (cband : ℕ) : Bool :=
  decide (band_f0 cband ≤ f) && decide (f ≤ band_f1 cband)

/-- `eeprom_load_frequency(band, vfo)` (lines 1597-1614): reads 4 bytes at
`vfo*4 + band*8 + 128` and big-endian-reassembles them.  The C sum
`16777216*hmsb + ...` is carried out in 32-bit arithmetic and lands in a
signed `long`, hence the `wrap32`. -/
def eeprom_load_frequency (band vfo : ℕ) (m : EEPROM) : ℤ :=
  let start_adr := vfo * 4 + band * 8 + 128
  let hmsb : ℤ := eeprom_read m start_adr
  let hlsb : ℤ := eeprom_read m (start_adr + 1)
  let lmsb : ℤ := eeprom_read m (start_adr + 2)
  let llsb : ℤ := eeprom_read m (start_adr + 3)
  wrap32 (16777216 * hmsb + 65536 * hlsb + 256 * lmsb + llsb)

/-- `eeprom_store_frequency(band, vfo, f)` (lines 1616-1634): splits the
32-bit signed `long` `f` into 4 bytes (`>> 16` and `>> 8` are arithmetic
shifts, i.e. floor divisions; each assignment to `unsigned char` reduces
mod 256) and writes them big-endian at `vfo*4 + band*8 + 128`. -/
def eeprom_store_frequency (band vfo : ℕ) (f : ℤ) (m : EEPROM) : EEPROM :=
  let start_adr := vfo * 4 + band * 8 + 128
  let hiword := f / 65536
  let loword := f - hiword * 65536
  let hmsb := toByte (hiword / 256)
  let hlsb := toByte (hiword - (hmsb : ℤ) * 256)
  let lmsb := toByte (loword / 256)
  let llsb := toByte (loword - (lmsb : ℤ) * 256)
  eeprom_write (eeprom_write (eeprom_write (eeprom_write m
    start_adr hmsb) (start_adr + 1) hlsb) (start_adr + 2) lmsb)
    (start_adr + 3) llsb

/-- `load_all_vfos()` (lines 1650-1665), per slot: the value `f_vfo[b][v]`
after boot loading is the persisted frequency, or the factory default
`f_vfo0[b][v]` when the persisted value fails `is_freq_ok`. -/
def load_all_vfos (m : EEPROM) (b v : ℕ) : ℤ :=
  let loaded := eeprom_load_frequency b v m
  if is_freq_ok loaded b then loaded else f_vfo0 b v

/-! ## Keypad decoder (source lines 1163-1216) -/

/-- The keypad voltage-band centers `key_value[]` (line 1166). -/
def key_value : List ℤ := [370, 735, 1320, 2462, 1863, 3135]

/-- The classification loop of `get_keys` (lines 1192-1215): scan the
indexed voltage-band table; on the first band whose open ±100 window
contains the averaged sample, return the key index (press shorter than
2 ticks) or index + 6 (press of 2 ticks or longer); if no band matches,
return the no-key sentinel -1. -/
def key_scan (avg d : ℤ) : List (ℕ × ℤ) → ℤ
  | [] => -1
  | (t1, c) :: rest =>
    if c - 100 < avg ∧ avg < c + 100 then
      if d < 2 then (t1 : ℤ) else (t1 : ℤ) + 6
    else key_scan avg d rest

/-- `get_keys` classification of a press whose averaged ADC sample is `avg`
and whose duration (`runsecs - secs0`) is `d` time-base ticks. -/
def get_keys_classify (avg d : ℤ) : ℤ :=
  key_scan avg d key_value.enum

/-! ## DDS AD9951 serial link (source lines 1268-1345) -/

/-- Events observable on the DDS serial link: update-strobe low/high
(`DDS_IO_UD`) and data bits clocked out by `spi_send_byte`. -/
inductive DDSEv where
  | udLo : DDSEv
  | udHi : DDSEv
  | bit : Bool → DDSEv
  deriving DecidableEq

/-- `spi_send_byte(sbyte)` (lines 1268-1289): shifts the 8 bits of `sbyte`
out MSB-first (mask `x` starts at `1 << 7` and shifts right each step). -/
def spi_send_byte (sbyte : ℕ) : List DDSEv :=
  (List.range 8).map fun t1 => DDSEv.bit ((sbyte &&& (128 >>> t1)) != 0)

/-- `set_frequency(frequency)` (lines 1292-1345) at `frequency = 7120000`,
as the transcript it emits on the DDS link.  `x` is the exact value of the
C `double` product `(f + INTERFREQUENCY) * 10.73741824` (clock rate
400 MHz, scale `2^32 / f_clock`); the conversion of that `double` to
`unsigned long` truncates toward zero, i.e. takes the floor of the positive
value, mod `2^32`.  The transfer is framed by `DDS_IO_UD` low before and
high after, and sends the instruction byte 0x04 and then the 4 bytes of the
tuning word, most significant first (mask `0xFF000000` shifting right). -/
def set_frequency (x : ℚ) : List DDSEv :=
  let fword : ℕ := (Int.toNat ⌊x⌋) % 2 ^ 32
  DDSEv.udLo ::
    (spi_send_byte 0x04 ++
      ((List.range 4).map fun t1 =>
        spi_send_byte ((fword &&& (0xFF000000 >>> (8 * t1))) >>> (24 - 8 * t1))).flatten ++
      [DDSEv.udHi])

/-! ## Radio state, effects, and the control loop (source lines 1712-2085) -/

/-- The mutable radio state of the firmware (globals, lines 367-371). -/
structure RadioState where
  cur_band : ℕ
  cur_vfo : ℕ
  sideband : ℤ
  f_vfo : ℕ → ℕ → ℤ
  f_lo : ℤ → ℤ

/-- Externally visible actions of one control-loop dispatch: EEPROM
transactions, synthesizer programming, relay lines, and display calls. -/
inductive Effect where
  | eepromWriteByte : ℕ → ℕ → Effect
  | eepromStoreFreq : ℕ → ℕ → ℤ → Effect
  | ddsSetFrequency : ℤ → Effect
  | loSetFreq : ℤ → Effect
  | relaySet : ℕ → Effect
  | showFrequency : ℤ → Effect
  | showBand : ℕ → Effect
  | showVfo : ℕ → Effect
  | showSideband : ℤ → Effect
  | showMsg : Effect
  deriving DecidableEq

/-- `set_band_relay(b)` (lines 1712-1731): drives the three relay lines
with the band index bits, programs the LO synthesizer with the LO value of
the new band's preferred sideband, and redraws the sideband indicator.
It does not touch the global `sideband` variable. -/
def set_band_relay (s : RadioState) (b : ℕ) : List Effect :=
  [Effect.relaySet b, Effect.loSetFreq (s.f_lo (pref_sideband b)),
   Effect.showSideband (pref_sideband b)]

/-- The `switch(key)` dispatch of the control loop (lines 2009-2060).
Keys 6 and 7 enter the interactive LO-calibration sub-loop `set_lo`, which
consumes further operator input and is outside this single-step model, so
the dispatch is `none` there; every other key value maps to the state
update and effect transcript of its `case` (no `case` label: no-op). -/
def handle_key (key : ℤ) (s : RadioState) : Option (RadioState × List Effect) :=
  if key = 0 then
    if s.cur_band < 7 then
      let b := s.cur_band + 1
      some ({ s with cur_band := b },
        [Effect.ddsSetFrequency (s.f_vfo b s.cur_vfo), Effect.showFrequency 0,
         Effect.showFrequency (s.f_vfo b s.cur_vfo), Effect.showBand b]
        ++ set_band_relay s b ++ [Effect.eepromWriteByte 256 b])
    else some (s, [])
  else if key = 1 then
    let sb : ℤ := if s.sideband = 0 then 1 else 0
    some ({ s with sideband := sb }, [Effect.showSideband sb])
  else if key = 2 then
    let v : ℕ := if s.cur_vfo = 0 then 1 else 0
    some ({ s with cur_vfo := v },
      [Effect.eepromWriteByte 257 v, Effect.showVfo v,
       Effect.ddsSetFrequency (s.f_vfo s.cur_band v),
       Effect.showFrequency (s.f_vfo s.cur_band v)])
  else if key = 3 then
    if 0 < s.cur_band then
      let b := s.cur_band - 1
      some ({ s with cur_band := b },
        [Effect.ddsSetFrequency (s.f_vfo b s.cur_vfo), Effect.showFrequency 0,
         Effect.showFrequency (s.f_vfo b s.cur_vfo), Effect.showBand b]
        ++ set_band_relay s b ++ [Effect.eepromWriteByte 256 b])
    else some (s, [])
  else if key = 4 then
    some (s,
      (((List.range 8).map fun t0 =>
          (List.range 2).map fun t1 => Effect.eepromStoreFreq t0 t1 (s.f_vfo t0 t1)).flatten)
      ++ [Effect.eepromWriteByte 257 s.cur_vfo, Effect.showMsg])
  else if key = 6 ∨ key = 7 then
    none
  else
    some (s, [])

/-- Full main-loop state: radio state plus the interrupt-shared tuning
accumulators (`tuning`, `pulses`, lines 388-390) and the time base. -/
structure MainState where
  radio : RadioState
  tuning : ℤ
  pulses : ℤ
  runsecs : ℤ

/-- `EXTI0_IRQHandler` (lines 414-440) on a rising encoder edge, given the
two encoder line levels PB0 and PB1: when PB0 is high, PB1 selects the
direction written to `tuning` and `pulses` is incremented. -/
def EXTI0_IRQHandler (pb0 pb1 : Bool) (s : MainState) : MainState :=
  if pb0 then
    if pb1 then { s with tuning := 1, pulses := s.pulses + 1 }
    else { s with tuning := -1, pulses := s.pulses + 1 }
  else s

/-- `TIM2_IRQHandler` (lines 443-451): the periodic time-base interrupt
clears `pulses` and advances `runsecs`. -/
def TIM2_IRQHandler (s : MainState) : MainState :=
  { s with pulses := 0, runsecs := s.runsecs + 1 }

/-- The tuning-event consumption step at the top of the control loop
(lines 1999-2005): when `tuning` is nonzero, add `pulses * pulses * tuning`
to the active VFO frequency, re-synthesize and redraw it, and clear
`tuning` (and nothing else).  The `+=` of line 2001 is 32-bit signed
`long` arithmetic, so the result is the two's-complement wrap of the
mathematical sum (wrapping the intermediate product separately would give
the same residue mod `2^32`, so one outer `wrap32` captures it). -/
def consume_tuning (s : MainState) : MainState × List Effect :=
  if s.tuning ≠ 0 then
    let f := wrap32 (s.radio.f_vfo s.radio.cur_band s.radio.cur_vfo
      + s.pulses * s.pulses * s.tuning)
    ({ s with
        radio := { s.radio with
          f_vfo := fun b v =>
            if b = s.radio.cur_band ∧ v = s.radio.cur_vfo then f
            else s.radio.f_vfo b v },
        tuning := 0 },
     [Effect.ddsSetFrequency f, Effect.showFrequency f])
  else (s, [])

/-- Boot-time band restore (lines 1960-1964): `cur_band = eeprom_read(256)`
clamped to the valid range, defaulting to band 2. -/
def boot_band (m : EEPROM) : ℤ :=
  let b : ℤ := eeprom_read m 256
  if b < 0 ∨ b > 7 then 2 else b

/-- Boot-time VFO restore (lines 1966-1970): `cur_vfo = eeprom_read(257)`
clamped to {0,1}, defaulting to VFO 0. -/
def boot_vfo (m : EEPROM) : ℤ :=
  let v : ℤ := eeprom_read m 257
  if v < 0 ∨ v > 1 then 0 else v

/-- Boot-time LO restore for sideband `t1` (lines 1976-1984): the persisted
LO value at band slot 8, replaced by `INTERFREQUENCY + 1500*(t1*2 - 1)`
when it lies outside `INTERFREQUENCY ± 3000`. -/
def boot_lo (m : EEPROM) (t1 : ℕ) : ℤ :=
  let loaded := eeprom_load_frequency 8 t1 m
  if loaded < INTERFREQUENCY - 3000 ∨ loaded > INTERFREQUENCY + 3000 then
    INTERFREQUENCY + 1500 * ((t1 : ℤ) * 2 - 1)
  else loaded

end Trx

namespace Trx

/-! ## Claim theorems -/

/-- C1 (counterexample): the claim asserts that an averaged sample of 1800
classifies as "no key" (-1); in fact 1800 lies strictly inside the ±100
window of `key_value[4] = 1863`, so the decoder returns key code 4 (short
press), not the no-key sentinel. -/
theorem C1_counterexample :
    get_keys_classify 1800 0 = 4 ∧ ¬(get_keys_classify 1800 0 = -1) := by
  decide

/-- C1 (amended): for an averaged sample strictly within 100 counts of 370
the decoder returns key code 0 for a press shorter than 2 ticks and 6
otherwise; an averaged sample of 1800 falls strictly within 100 counts of
key 4's center 1863, so it returns key code 4 (short press) or 10 (long
press), not the no-key sentinel. -/
theorem C1_keypad_classification (v d : ℤ) (h : 270 < v ∧ v < 470) :
    (get_keys_classify v d = if d < 2 then 0 else 6) ∧
    (get_keys_classify 1800 d = if d < 2 then 4 else 10) := by
  obtain ⟨h1, h2⟩ := h
  have henum : key_value.enum
      = [(0, 370), (1, 735), (2, 1320), (3, 2462), (4, 1863), (5, 3135)] := rfl
  constructor
  · unfold get_keys_classify
    rw [henum]
    simp only [key_scan, if_pos (show (370:ℤ) - 100 < v ∧ v < 370 + 100 by omega)]
    split <;> norm_num
  · unfold get_keys_classify
    rw [henum]
    by_cases hd : d < 2 <;> norm_num [key_scan, hd]

/-- C1 witness: the amended classification at the concrete sample 370
held for 0 ticks. -/
theorem C1_keypad_classification_witness :
    (get_keys_classify 370 0 = if (0:ℤ) < 2 then 0 else 6) ∧
    (get_keys_classify 1800 0 = if (0:ℤ) < 2 then 4 else 10) :=
  C1_keypad_classification 370 0 ⟨by norm_num, by norm_num⟩

/-- C3 (counterexample): the claim asserts the consuming step clears both
the direction flag and the pulse count; starting from `tuning = 1`,
`pulses = 5`, the consuming step leaves `pulses` at 5, not 0. -/
theorem C3_counterexample :
    (consume_tuning ⟨⟨0, 0, 0, fun _ _ => 0, fun _ => 0⟩, 1, 5, 0⟩).1.pulses = 5 ∧
    ¬((consume_tuning ⟨⟨0, 0, 0, fun _ _ => 0, fun _ => 0⟩, 1, 5, 0⟩).1.pulses = 0) := by
  decide

/-- C3 (amended): on a control-loop iteration that consumes a pending
tuning event, the consuming step resets the direction flag `tuning` to
zero but leaves the accumulated pulse count unchanged; the pulse count is
reset to zero by the periodic timer interrupt `TIM2_IRQHandler`, not by
the consuming step. -/
theorem C3_tuning_consume_reset (s : MainState) (h : s.tuning ≠ 0) :
    (consume_tuning s).1.tuning = 0 ∧
    (consume_tuning s).1.pulses = s.pulses ∧
    (TIM2_IRQHandler s).pulses = 0 := by
  simp [consume_tuning, TIM2_IRQHandler, h]

/-- C3 witness: the amended reset behaviour at a concrete pending event
(`tuning = 1`, `pulses = 7`). -/
theorem C3_tuning_consume_reset_witness :
    (consume_tuning ⟨⟨0, 0, 0, fun _ _ => 0, fun _ => 0⟩, 1, 7, 0⟩).1.tuning = 0 ∧
    (consume_tuning ⟨⟨0, 0, 0, fun _ _ => 0, fun _ => 0⟩, 1, 7, 0⟩).1.pulses = 7 ∧
    (TIM2_IRQHandler ⟨⟨0, 0, 0, fun _ _ => 0, fun _ => 0⟩, 1, 7, 0⟩).pulses = 0 :=
  C3_tuning_consume_reset ⟨⟨0, 0, 0, fun _ _ => 0, fun _ => 0⟩, 1, 7, 0⟩ (by decide)

/-- C4 (counterexample): the exact-delta claim fails where the 32-bit
`long` addition of line 2001 overflows: from the representable frequency
`2^31 - 1 = 2147483647` a consumed event with direction +1 and pulse
count 1 wraps the active VFO slot to `-2^31` instead of changing it by
`+1`. -/
theorem C4_counterexample :
    (consume_tuning
        ⟨⟨0, 0, 0, fun _ _ => 2147483647, fun _ => 0⟩, 1, 1, 0⟩).1.radio.f_vfo 0 0
      = -(2 ^ 31) ∧
    ¬((consume_tuning
        ⟨⟨0, 0, 0, fun _ _ => 2147483647, fun _ => 0⟩, 1, 1, 0⟩).1.radio.f_vfo 0 0
      = 2147483647 + 1 * 1 ^ 2) := by
  decide

/-- C4 (amended): consuming a tuning event with direction
`tuning ∈ {+1, -1}` and pulse count `pulses` updates the active VFO
frequency `f_vfo[cur_band][cur_vfo]` by the unclamped 32-bit `long`
addition of `tuning * pulses²`: whenever the mathematical sum fits in the
32-bit signed range (in particular `pulses = 1` gives ±1 and `pulses = 5`
gives ±25 from any in-band frequency), the frequency changes by exactly
`tuning * pulses²` with no band-bound clamping; outside that range the
sum wraps mod `2^32`. -/
theorem C4_tuning_delta (s : MainState) (h : s.tuning = 1 ∨ s.tuning = -1)
    (hf0 : -(2 ^ 31) ≤ s.radio.f_vfo s.radio.cur_band s.radio.cur_vfo
      + s.tuning * s.pulses ^ 2)
    (hf1 : s.radio.f_vfo s.radio.cur_band s.radio.cur_vfo
      + s.tuning * s.pulses ^ 2 < 2 ^ 31) :
    (consume_tuning s).1.radio.f_vfo s.radio.cur_band s.radio.cur_vfo
      = s.radio.f_vfo s.radio.cur_band s.radio.cur_vfo + s.tuning * s.pulses ^ 2 := by
  have ht : s.tuning ≠ 0 := by rcases h with h | h <;> omega
  simp [consume_tuning, ht]
  rw [show s.pulses * s.pulses * s.tuning = s.tuning * s.pulses ^ 2 from by ring]
  generalize hD : s.tuning * s.pulses ^ 2 = D at hf0 hf1 ⊢
  unfold wrap32
  omega

/-- C4 witness: a concrete event with direction +1 and pulse count 5 moves
the active VFO frequency from 100 up by exactly 25. -/
theorem C4_tuning_delta_witness :
    (consume_tuning ⟨⟨0, 0, 0, fun _ _ => 100, fun _ => 0⟩, 1, 5, 0⟩).1.radio.f_vfo 0 0
      = 100 + 1 * 5 ^ 2 :=
  C4_tuning_delta ⟨⟨0, 0, 0, fun _ _ => 100, fun _ => 0⟩, 1, 5, 0⟩ (Or.inl rfl)
    (by decide) (by decide)

/-- C8: at band 0 the band-down key (code 3) is a complete no-op — the
state is returned unchanged and no effect (no EEPROM write, no DDS or LO
programming, no display call) is emitted; symmetrically at band 7 for the
band-up key (code 0). -/
theorem C8_band_boundary_noop (s : RadioState) (key : ℤ)
    (h : (key = 3 ∧ s.cur_band = 0) ∨ (key = 0 ∧ s.cur_band = 7)) :
    handle_key key s = some (s, []) := by
  rcases h with ⟨hk, hb⟩ | ⟨hk, hb⟩ <;> subst hk <;> simp [handle_key, hb]

/-- C8 witness: the band-down key at a concrete state sitting on band 0. -/
theorem C8_band_boundary_noop_witness :
    handle_key 3 ⟨0, 0, 0, fun _ _ => 0, fun _ => 0⟩
      = some (⟨0, 0, 0, fun _ _ => 0, fun _ => 0⟩, []) :=
  C8_band_boundary_noop ⟨0, 0, 0, fun _ _ => 0, fun _ => 0⟩ 3 (Or.inl ⟨rfl, rfl⟩)

/-- C9: the boot-time restore keeps a persisted band byte in [0,7] and a
persisted VFO byte in {0,1} unchanged, and resolves any other persisted
byte to band 2 resp. VFO 0; in particular a persisted band index 9
resolves to 2 and a persisted VFO id 9 resolves to 0. -/
theorem C9_boot_index_validation (m : EEPROM) :
    (boot_band m = if 7 < (eeprom_read m 256 : ℤ) then 2 else (eeprom_read m 256 : ℤ)) ∧
    (boot_vfo m = if 1 < (eeprom_read m 257 : ℤ) then 0 else (eeprom_read m 257 : ℤ)) ∧
    boot_band (fun _ => 9) = 2 ∧ boot_vfo (fun _ => 9) = 0 := by
  refine ⟨?_, ?_, by decide, by decide⟩
  · unfold boot_band
    have h0 : (0:ℤ) ≤ (eeprom_read m 256 : ℤ) := Int.natCast_nonneg _
    rcases lt_or_le 7 ((eeprom_read m 256 : ℤ)) with h | h
    · rw [if_pos (Or.inr h), if_pos h]
    · rw [if_neg (by omega), if_neg (by omega)]
  · unfold boot_vfo
    have h0 : (0:ℤ) ≤ (eeprom_read m 257 : ℤ) := Int.natCast_nonneg _
    rcases lt_or_le 1 ((eeprom_read m 257 : ℤ)) with h | h
    · rw [if_pos (Or.inr h), if_pos h]
    · rw [if_neg (by omega), if_neg (by omega)]

end Trx

namespace Trx

/-- `is_freq_ok` unfolded to its two band-plan inequalities. -/
theorem is_freq_ok_iff (f : ℤ) (cb : ℕ) :
    is_freq_ok f cb = true ↔ band_f0 cb ≤ f ∧ f ≤ band_f1 cb := by
  simp [is_freq_ok]

/-- C5: after boot loading, every VFO slot `(b, v)` holds a frequency
within its band's bounds; a persisted value failing `is_freq_ok` is
replaced by the factory default `f_vfo0[b][v]`, and every factory default
itself passes `is_freq_ok` for its band. -/
theorem C5_band_plan_invariant (m : EEPROM) (b v : ℕ) (hb : b < 8) (hv : v < 2) :
    (band_f0 b ≤ load_all_vfos m b v ∧ load_all_vfos m b v ≤ band_f1 b) ∧
    (is_freq_ok (eeprom_load_frequency b v m) b = false →
      load_all_vfos m b v = f_vfo0 b v) ∧
    is_freq_ok (f_vfo0 b v) b = true := by
  have hdef : is_freq_ok (f_vfo0 b v) b = true := by
    interval_cases b <;> interval_cases v <;> decide
  refine ⟨?_, ?_, hdef⟩
  · unfold load_all_vfos
    by_cases h : is_freq_ok (eeprom_load_frequency b v m) b = true
    · rw [if_pos h]
      exact (is_freq_ok_iff _ _).1 h
    · rw [if_neg h]
      exact (is_freq_ok_iff _ _).1 hdef
  · intro h
    unfold load_all_vfos
    rw [if_neg (by simp [h])]

/-- C5 witness: slot (0,0) over an all-zero EEPROM image (persisted value
0 is out of band, so the factory default is used). -/
theorem C5_band_plan_invariant_witness :
    (band_f0 0 ≤ load_all_vfos (fun _ => 0) 0 0 ∧
      load_all_vfos (fun _ => 0) 0 0 ≤ band_f1 0) ∧
    (is_freq_ok (eeprom_load_frequency 0 0 (fun _ => 0)) 0 = false →
      load_all_vfos (fun _ => 0) 0 0 = f_vfo0 0 0) ∧
    is_freq_ok (f_vfo0 0 0) 0 = true :=
  C5_band_plan_invariant (fun _ => 0) 0 0 (by norm_num) (by norm_num)

/-- C6: after boot, for each sideband `t1 ∈ {0,1}` the LO frequency lies
within 3000 Hz of the 10 MHz intermediate frequency, and a persisted value
outside that window is replaced by `INTERFREQUENCY + 1500*(2*t1 - 1)`
(nominal minus half-tolerance for LSB, plus half-tolerance for USB). -/
theorem C6_lo_tolerance (m : EEPROM) (t1 : ℕ) (h : t1 < 2) :
    |boot_lo m t1 - INTERFREQUENCY| ≤ 3000 ∧
    ((eeprom_load_frequency 8 t1 m < INTERFREQUENCY - 3000 ∨
        INTERFREQUENCY + 3000 < eeprom_load_frequency 8 t1 m) →
      boot_lo m t1 = INTERFREQUENCY + 1500 * ((t1 : ℤ) * 2 - 1)) := by
  unfold boot_lo
  rw [abs_le]
  by_cases hc : eeprom_load_frequency 8 t1 m < INTERFREQUENCY - 3000 ∨
      INTERFREQUENCY + 3000 < eeprom_load_frequency 8 t1 m
  · rw [if_pos hc]
    refine ⟨?_, fun _ => rfl⟩
    unfold INTERFREQUENCY
    omega
  · rw [if_neg hc]
    unfold INTERFREQUENCY at hc ⊢
    exact ⟨by omega, fun hx => absurd hx hc⟩

/-- C6 witness: sideband 0 over an all-zero EEPROM image (persisted LO 0
is out of tolerance, so the computed default 9998500 is used). -/
theorem C6_lo_tolerance_witness :
    |boot_lo (fun _ => 0) 0 - INTERFREQUENCY| ≤ 3000 ∧
    ((eeprom_load_frequency 8 0 (fun _ => 0) < INTERFREQUENCY - 3000 ∨
        INTERFREQUENCY + 3000 < eeprom_load_frequency 8 0 (fun _ => 0)) →
      boot_lo (fun _ => 0) 0 = INTERFREQUENCY + 1500 * ((0 : ℤ) * 2 - 1)) :=
  C6_lo_tolerance (fun _ => 0) 0 (by norm_num)

/-- C10: a band change (key 0 with room above, key 3 with room below)
moves `cur_band` to the new band `b`, programs the LO synthesizer with
`f_lo[pref_sideband[b]]` and redraws the sideband indicator with
`pref_sideband[b]`, while the global `sideband` state variable is left
unchanged — so the stored sideband flag can disagree with the preferred
sideband whose LO value was programmed. -/
theorem C10_band_change_lo (s : RadioState) (key : ℤ) (b : ℕ)
    (h : (key = 0 ∧ s.cur_band < 7 ∧ b = s.cur_band + 1) ∨
         (key = 3 ∧ 0 < s.cur_band ∧ b = s.cur_band - 1)) :
    ∃ s2 effs, handle_key key s = some (s2, effs) ∧
      s2.cur_band = b ∧ s2.sideband = s.sideband ∧
      Effect.loSetFreq (s.f_lo (pref_sideband b)) ∈ effs ∧
      Effect.showSideband (pref_sideband b) ∈ effs := by
  rcases h with ⟨hk, hb, hb2⟩ | ⟨hk, hb, hb2⟩
  · subst hk; subst hb2
    have hh : handle_key 0 s = some ({ s with cur_band := s.cur_band + 1 },
        [Effect.ddsSetFrequency (s.f_vfo (s.cur_band + 1) s.cur_vfo),
         Effect.showFrequency 0,
         Effect.showFrequency (s.f_vfo (s.cur_band + 1) s.cur_vfo),
         Effect.showBand (s.cur_band + 1)]
        ++ set_band_relay s (s.cur_band + 1)
        ++ [Effect.eepromWriteByte 256 (s.cur_band + 1)]) := by
      simp [handle_key, hb]
    exact ⟨_, _, hh, rfl, rfl, by simp [set_band_relay], by simp [set_band_relay]⟩
  · subst hk; subst hb2
    have hh : handle_key 3 s = some ({ s with cur_band := s.cur_band - 1 },
        [Effect.ddsSetFrequency (s.f_vfo (s.cur_band - 1) s.cur_vfo),
         Effect.showFrequency 0,
         Effect.showFrequency (s.f_vfo (s.cur_band - 1) s.cur_vfo),
         Effect.showBand (s.cur_band - 1)]
        ++ set_band_relay s (s.cur_band - 1)
        ++ [Effect.eepromWriteByte 256 (s.cur_band - 1)]) := by
      simp [handle_key, hb]
    exact ⟨_, _, hh, rfl, rfl, by simp [set_band_relay], by simp [set_band_relay]⟩

/-- C10 witness: a band-up at a concrete state on band 0 whose stored
sideband flag is 1; the LO value programmed is the one for
`pref_sideband[1] = 0` while `sideband` stays 1. -/
theorem C10_band_change_lo_witness :
    ∃ s2 effs, handle_key 0 (⟨0, 0, 1, fun _ _ => 0, fun i => 5000000 + i⟩ : RadioState)
        = some (s2, effs) ∧
      s2.cur_band = 1 ∧ s2.sideband = 1 ∧
      Effect.loSetFreq (5000000 + pref_sideband 1) ∈ effs ∧
      Effect.showSideband (pref_sideband 1) ∈ effs :=
  C10_band_change_lo _ 0 1 (Or.inl ⟨rfl, by norm_num, rfl⟩)

end Trx

namespace Trx

/-- A `toByte` result cast back to ℤ is the mod-256 residue. -/
theorem toByte_cast (x : ℤ) : ((toByte x : ℕ) : ℤ) = x % 256 := by
  unfold toByte
  omega

/-- Reducing mod 256 twice is the same as once. -/
theorem emod256_redundant (x : ℤ) : x % 256 % 256 = x % 256 := by omega

/-- Storing any value representable in the 32-bit signed `long` parameter
of `eeprom_store_frequency` and re-loading it from the same (band, vfo)
slot is the identity, over a store that returns the bytes last written. -/
theorem eeprom_store_load_long (m : EEPROM) (band vfo : ℕ) (g : ℤ)
    (hg0 : -(2 ^ 31) ≤ g) (hg1 : g < 2 ^ 31) :
    eeprom_load_frequency band vfo (eeprom_store_frequency band vfo g m) = g := by
  simp only [eeprom_load_frequency, eeprom_store_frequency, eeprom_read, eeprom_write]
  norm_num
  simp only [toByte_cast, emod256_redundant]
  have e1 : g / 65536 / 256 = g / 16777216 := by omega
  rw [e1]
  have e3 : g - g / 65536 * 65536 = g % 65536 := by omega
  rw [e3]
  have e2 : (g / 65536 - g / 16777216 % 256 * 256) % 256 = g / 65536 % 256 := by omega
  rw [e2]
  have e4 : g % 65536 / 256 = g / 256 % 256 := by omega
  rw [e4]
  simp only [emod256_redundant]
  have e5 : (g % 65536 - g / 256 % 256 * 256) % 256 = g % 256 := by omega
  rw [e5]
  unfold wrap32
  omega

/-- C2 (counterexample): the claim quantifies `f` over `[0, 2^32)`, but
`eeprom_store_frequency` takes a 32-bit signed `long`; `f = 2^31` can
only be passed as its two's-complement reinterpretation `wrap32 (2^31) =
-2^31`, and the store/load round trip then yields `-2^31`, not `2^31`. -/
theorem C2_counterexample :
    eeprom_load_frequency 0 0 (eeprom_store_frequency 0 0 (wrap32 (2 ^ 31)) (fun _ => 0))
        = -(2 ^ 31) ∧
    ¬(eeprom_load_frequency 0 0 (eeprom_store_frequency 0 0 (wrap32 (2 ^ 31)) (fun _ => 0))
        = 2 ^ 31) := by
  decide

/-- C2 (amended): for every band, vfo and `f ∈ [0, 2^32)`, storing the
`long` reinterpretation `wrap32 f` and re-loading the slot returns
`wrap32 f` — the same 32-bit pattern as `f` — and for `f ∈ [0, 2^31)`
(every value a 32-bit signed `long` can hold) that is exactly `f`. -/
theorem C2_eeprom_roundtrip (m : EEPROM) (band vfo : ℕ) (f : ℤ)
    (h0 : 0 ≤ f) (h1 : f < 2 ^ 32) :
    eeprom_load_frequency band vfo (eeprom_store_frequency band vfo (wrap32 f) m)
      = wrap32 f ∧ (f < 2 ^ 31 → wrap32 f = f) := by
  constructor
  · exact eeprom_store_load_long m band vfo (wrap32 f)
      (by unfold wrap32; omega) (by unfold wrap32; omega)
  · intro h2
    unfold wrap32
    omega

/-- C2 witness: the round trip at band 3, VFO 1, frequency 14280000. -/
theorem C2_eeprom_roundtrip_witness :
    eeprom_load_frequency 3 1 (eeprom_store_frequency 3 1 (wrap32 14280000) (fun _ => 0))
        = wrap32 14280000 ∧ ((14280000:ℤ) < 2 ^ 31 → wrap32 14280000 = 14280000) :=
  C2_eeprom_roundtrip (fun _ => 0) 3 1 14280000 (by norm_num) (by norm_num)

end Trx

namespace Trx

/-- C7: whenever the `double` product computed by `set_frequency(7120000)`
is within 1/4 of the exact real value `(7120000 + 10^7) * 2^32 / (4*10^8)`
(far looser than the IEEE-754 double error, which is below 10^-6 here),
the transcript on the DDS link is exactly: update-strobe low, the
instruction byte 0x04, then the four bytes 10, 244, 240, 216 of the
tuning word 183824600 most significant first, and update-strobe high —
and 183824600 is `round((f + IF) * 2^32 / f_clock)` for this `f`. -/
theorem C7_dds_transcript (x : ℚ)
    (h : |x - (7120000 + 10000000) * 2 ^ 32 / 400000000| ≤ 1 / 4) :
    set_frequency x
      = [DDSEv.udLo] ++ spi_send_byte 0x04 ++ spi_send_byte 10 ++ spi_send_byte 244
        ++ spi_send_byte 240 ++ spi_send_byte 216 ++ [DDSEv.udHi] ∧
    (10 * 2 ^ 24 + 244 * 2 ^ 16 + 240 * 2 ^ 8 + 216 : ℕ) = 183824600 ∧
    round ((7120000 + 10000000) * (2 ^ 32 : ℚ) / 400000000) = 183824600 := by
  have hqv : ((7120000 + 10000000) * (2 ^ 32 : ℚ) / 400000000) = 114890375168 / 625 := by
    norm_num
  rw [hqv] at h
  rw [abs_le] at h
  have hfl : ⌊x⌋ = 183824600 := by
    rw [Int.floor_eq_iff]
    constructor
    · push_cast
      linarith [h.1]
    · push_cast
      linarith [h.2]
  refine ⟨?_, by norm_num, ?_⟩
  · simp only [set_frequency, hfl]
    decide
  · rw [hqv, round_eq]
    rw [show (114890375168 : ℚ) / 625 + 1 / 2 = 229780750961 / 1250 by norm_num]
    rw [Int.floor_eq_iff]
    constructor
    · norm_num
    · norm_num

/-- C7 witness: the transcript when the `double` product is exactly the
real value (error 0). -/
theorem C7_dds_transcript_witness :
    set_frequency ((7120000 + 10000000) * 2 ^ 32 / 400000000)
      = [DDSEv.udLo] ++ spi_send_byte 0x04 ++ spi_send_byte 10 ++ spi_send_byte 244
        ++ spi_send_byte 240 ++ spi_send_byte 216 ++ [DDSEv.udHi] ∧
    (10 * 2 ^ 24 + 244 * 2 ^ 16 + 240 * 2 ^ 8 + 216 : ℕ) = 183824600 ∧
    round ((7120000 + 10000000) * (2 ^ 32 : ℚ) / 400000000) = 183824600 :=
  C7_dds_transcript _ (by norm_num)

end Trx
